import Mathlib

/-!
Verification of the Brawl Stars map-rotation utility
(src/utils/brawl_maps.py) against its specification.

The Python module defines a static rotation table, a count validator
(the function named with a leading underscore, normalising the count),
a selector drawing distinct modes from an injected random source
(pick_unique_mode_maps), and a formatter (format_rotation_message).

Shallow embedding choices:
* the random source (Python random.Random) becomes an explicit record
  of state-passing operations (RandomSource): sampling k mode entries
  and choosing one map both return the drawn value together with the
  successor state;
* the per-mode payload dictionary, whose keys are accessed with
  .get defaults, becomes a record of Option fields (a missing key is
  none);
* ValueError becomes Except.error carrying the message string;
* pick_unique_mode_maps reads the module-level global table; the
  embedding makes that global an explicit parameter
  (pickUniqueModeMapsFrom) and recovers the source function by
  instantiating it with MAP_ROTATION.
-/

namespace BrawlMaps

/-- Describe a single playable map in the rotation
(the frozen dataclass MapDefinition of the source). -/
structure MapDefinition where
  mode : String
  map_name : String
  emoji : String
  deriving DecidableEq, Repr

/-- The per-mode payload of the rotation table: a dictionary that may or
may not carry the "emoji" and "maps" keys.  A missing key is modelled
as none; the source reads the keys with .get and the defaults "" and
the empty tuple. -/
structure Payload where
  emoji : Option String
  maps : Option (List String)
  deriving DecidableEq, Repr

/-- Canonical configuration for the available game modes and their maps
(MAP_ROTATION of the source), as the ordered association list that
list(MAP_ROTATION.items()) produces: Python dictionaries preserve
insertion order. -/
def MAP_ROTATION : List (String × Payload) :=
  [ ("Razzia de gemmes",
      ⟨some "<:GemGrab:1436473738765008976>",
       some ["Mine hard-rock", "Tunnel de mine", "Bruissements"]⟩),
    ("Brawlball",
      ⟨some "<:Brawlball:1436473735573143562>",
       some ["Tir au buts", "Super plage", "Triple Dribble"]⟩),
    ("Hors-jeu",
      ⟨some "<:KnockOut:1436473703083937914>",
       some ["Rocher de la belle", "Ravin du bras d\x27or", "À découvert"]⟩),
    ("Braquage",
      ⟨some "<:Heist:1436473730812481546>",
       some ["C\x27est chaud patate", "Arrêt au stand", "Zone sécurisée"]⟩),
    ("Zone réservée",
      ⟨some "<:HotZone:1436473698491175137>",
       some ["Duel de scarabées", "Cercle de feu", "Stratégies parallèles"]⟩),
    ("Prime",
      ⟨some "<:Bounty:1436473727519948962>",
       some ["Cachette secrète", "Étoile filante", "Mille-feuille"]⟩) ]

/-- An injectable random source over a state type.  sample draws k mode
entries from a population (random.Random.sample), choice draws one map
name from a sequence (random.Random.choice); both consume entropy, so
both return the successor state. -/
structure RandomSource (σ : Type) where
  sample : σ → List (String × Payload) → Nat → List (String × Payload) × σ
  choice : σ → List String → String × σ

/-- Bound the requested map count to the available number of modes
(the underscore-prefixed count validator of the source).  Despite the
docstring it never alters the count: it raises ValueError on a
non-positive count, an empty table, or a count above the number of
modes, and otherwise returns the count unchanged. -/
def _normalise_count (count : Int) (available : Nat) : Except String Int :=
  if count ≤ 0 then
    Except.error "count must be strictly positive"
  else if (available : Int) ≤ 0 then
    Except.error "no map modes configured"
  else if count > (available : Int) then
    Except.error "requested map count exceeds the number of modes"
  else
    Except.ok count

/-- The selection loop of pick_unique_mode_maps: for each sampled
(mode, payload) pair, read the maps with default empty tuple and the
emoji with default empty string, raise ValueError on an empty map list,
otherwise draw one map with choice and build a MapDefinition.  The
random-source state is threaded through and returned even on the error
path, because in the source the ValueError is raised after the earlier
iterations already consumed entropy. -/
def selectLoop {σ : Type} (rs : RandomSource σ) :
    List (String × Payload) → σ → Except String (List MapDefinition) × σ
  | [], s => (Except.ok [], s)
  | (mode, payload) :: rest, s =>
    let maps := payload.maps.getD []
    let emoji := payload.emoji.getD ""
    if maps = [] then
      (Except.error ("mode \x27" ++ mode ++ "\x27 has no maps configured"), s)
    else
      let drawn := rs.choice s maps
      match selectLoop rs rest drawn.2 with
      | (Except.ok l, s2) => (Except.ok (MapDefinition.mk mode drawn.1 emoji :: l), s2)
      | (Except.error e, s2) => (Except.error e, s2)

/-- pick_unique_mode_maps with the module-level global MAP_ROTATION made
an explicit parameter: validate the count against the number of table
entries, sample that many distinct mode entries, then run the selection
loop.  On a validation error nothing has been drawn, so the input state
is returned unchanged. -/
def pickUniqueModeMapsFrom {σ : Type} (table : List (String × Payload))
    (rs : RandomSource σ) (s : σ) (count : Int) :
    Except String (List MapDefinition) × σ :=
  let available_modes := table
  match _normalise_count count available_modes.length with
  | Except.error e => (Except.error e, s)
  | Except.ok normalised =>
    let sampled := rs.sample s available_modes normalised.toNat
    selectLoop rs sampled.1 sampled.2

/-- pick_unique_mode_maps of the source: the table is the global
MAP_ROTATION, count defaults to 3. -/
def pick_unique_mode_maps {σ : Type} (rs : RandomSource σ) (s : σ)
    (count : Int := 3) : Except String (List MapDefinition) × σ :=
  pickUniqueModeMapsFrom MAP_ROTATION rs s count

/-- Format a human-readable sentence announcing the selected maps
(format_rotation_message of the source): one chunk per item, joined by
a newline via str.join, which String.intercalate embeds. -/
def format_rotation_message (selection : List MapDefinition) : String :=
  let formatted_chunks := selection.map fun item =>
    item.emoji ++ " **" ++ item.mode ++ "** — " ++ item.map_name
  String.intercalate "\n" formatted_chunks

/-- Specification-side rendering of one announcement line. -/
def rotationLine (item : MapDefinition) : String :=
  item.emoji ++ " **" ++ item.mode ++ "** — " ++ item.map_name

/-- Specification-side join: lines separated by exactly one newline and
no trailing newline, the empty string for no lines.  Defined
independently of String.intercalate so that the formatting theorem
compares the source embedding against the words of the spec. -/
def joinedLines : List String → String
  | [] => ""
  | [x] => x
  | x :: y :: ys => x ++ "\n" ++ joinedLines (y :: ys)

/-- A concrete deterministic random source with trivial state: sample
returns the first k entries of the population, choice the first element
of the sequence.  It satisfies the contracts of random.sample and
random.choice and is used to instantiate the abstract theorems. -/
def headRng : RandomSource Unit where
  sample := fun s pop k => (pop.take k, s)
  choice := fun s l => (l.headD "", s)

/-- State of a scripted random source: the queue of mode entries that
successive sample calls will hand out, and the queue of map names that
successive choice calls will hand out. -/
structure OracleState where
  modeDraws : List (String × Payload)
  mapDraws : List String
  deriving DecidableEq, Repr

/-- A scripted random source replaying recorded draws: sample hands out
the next k queued mode entries, choice the next queued map name. -/
def oracleRng : RandomSource OracleState where
  sample := fun s _ k => (s.modeDraws.take k, ⟨s.modeDraws.drop k, s.mapDraws⟩)
  choice := fun s _ => (s.mapDraws.headD "", ⟨s.modeDraws, s.mapDraws.tail⟩)

/-- The draws Python random.Random(0) produces for this table, as
recorded by the deterministic-seed test: modes Braquage, Prime,
Razzia de gemmes in that order, then maps Arrêt au stand,
Mille-feuille, Tunnel de mine respectively. -/
def random0State : OracleState where
  modeDraws :=
    [ ("Braquage",
        ⟨some "<:Heist:1436473730812481546>",
         some ["C\x27est chaud patate", "Arrêt au stand", "Zone sécurisée"]⟩),
      ("Prime",
        ⟨some "<:Bounty:1436473727519948962>",
         some ["Cachette secrète", "Étoile filante", "Mille-feuille"]⟩),
      ("Razzia de gemmes",
        ⟨some "<:GemGrab:1436473738765008976>",
         some ["Mine hard-rock", "Tunnel de mine", "Bruissements"]⟩) ]
  mapDraws := ["Arrêt au stand", "Mille-feuille", "Tunnel de mine"]

/-! ### Helper lemmas shared by the claim theorems -/

/-- Every entry of the rotation table has a non-empty map list. -/
theorem rotation_maps_nonempty : ∀ e ∈ MAP_ROTATION, e.2.maps.getD [] ≠ [] := by
  decide

/-- The mode names of the rotation table are pairwise distinct. -/
theorem rotation_keys_nodup : (MAP_ROTATION.map Prod.fst).Nodup := by
  decide

/-- On a valid count the validator returns the count unchanged. -/
theorem normalise_ok (count : Int) (available : Nat)
    (h1 : 1 ≤ count) (h2 : count ≤ (available : Int)) :
    _normalise_count count available = Except.ok count := by
  have ha : ¬count ≤ 0 := by omega
  have hb : ¬(available : Int) ≤ 0 := by omega
  have hcc : ¬count > (available : Int) := by omega
  simp [_normalise_count, ha, hb, hcc]

/-- On an invalid count the validator signals an error. -/
theorem normalise_error (count : Int) (available : Nat)
    (h : count ≤ 0 ∨ available = 0 ∨ (available : Int) < count) :
    ∃ e, _normalise_count count available = Except.error e := by
  unfold _normalise_count
  by_cases h1 : count ≤ 0
  · simp [h1]
  · by_cases h2 : (available : Int) ≤ 0
    · simp [h1, h2]
    · have h3 : count > (available : Int) := by omega
      simp [h1, h2, h3]

/-- A successful validation can only return the requested count. -/
theorem normalise_ok_val {count : Int} {available : Nat} {n : Int}
    (h : _normalise_count count available = Except.ok n) : n = count := by
  unfold _normalise_count at h
  split at h
  · exact absurd h (by simp)
  · split at h
    · exact absurd h (by simp)
    · split at h
      · exact absurd h (by simp)
      · exact (Except.ok.injEq _ _ ▸ congrArg id h).symm ▸ by
          cases h; rfl

/-- The selection loop fails exactly when some handed-out entry has an
empty map list. -/
theorem selectLoop_error_iff {σ : Type} (rs : RandomSource σ)
    (entries : List (String × Payload)) : ∀ (s : σ),
      (∃ msg, (selectLoop rs entries s).1 = Except.error msg) ↔
        ∃ e ∈ entries, e.2.maps.getD [] = [] := by
  induction entries with
  | nil => intro s; simp [selectLoop]
  | cons hd rest ih =>
    intro s
    obtain ⟨m, p⟩ := hd
    by_cases h : p.maps.getD [] = []
    · simp [selectLoop, h]
    · have ih2 := ih (rs.choice s (p.maps.getD [])).2
      cases hrec : selectLoop rs rest (rs.choice s (p.maps.getD [])).2 with
      | mk res s2 =>
        rw [hrec] at ih2
        cases res with
        | ok l => simp [selectLoop, h, hrec, h] at ih2 ⊢; simpa [h] using ih2
        | error e =>
          simp [selectLoop, h, hrec] at ih2 ⊢
          exact ih2

/-- When every handed-out entry has a non-empty map list, the selection
loop succeeds and the produced modes are exactly the handed-out mode
names, in order. -/
theorem selectLoop_ok {σ : Type} (rs : RandomSource σ)
    (entries : List (String × Payload)) : ∀ (s : σ),
      (∀ e ∈ entries, e.2.maps.getD [] ≠ []) →
      ∃ l s2, selectLoop rs entries s = (Except.ok l, s2) ∧
        l.map MapDefinition.mode = entries.map Prod.fst := by
  induction entries with
  | nil => exact fun s _ => ⟨[], s, rfl, rfl⟩
  | cons hd rest ih =>
    intro s hne
    obtain ⟨m, p⟩ := hd
    have h : p.maps.getD [] ≠ [] := hne (m, p) (List.mem_cons_self _ _)
    obtain ⟨l, s2, hrec, hmap⟩ := ih (rs.choice s (p.maps.getD [])).2
      (fun e he => hne e (List.mem_cons_of_mem _ he))
    refine ⟨MapDefinition.mk m (rs.choice s (p.maps.getD [])).1 (p.emoji.getD "") :: l,
      s2, ?_, ?_⟩
    · simp [selectLoop, h, hrec]
    · simp [hmap]

/-- Every map produced by a successful selection loop comes from the
table entry of its mode, with the table entry's emoji, provided the
handed-out entries come from the table and choice picks a member. -/
theorem selectLoop_mem {σ : Type} (rs : RandomSource σ)
    (hc : ∀ (st : σ) (l : List String), l ≠ [] → (rs.choice st l).1 ∈ l)
    (table : List (String × Payload)) (entries : List (String × Payload)) :
    ∀ (s : σ) (l : List MapDefinition) (s2 : σ),
      (∀ e ∈ entries, e ∈ table) →
      selectLoop rs entries s = (Except.ok l, s2) →
      ∀ d ∈ l, ∃ p, (d.mode, p) ∈ table ∧
        d.map_name ∈ p.maps.getD [] ∧ d.emoji = p.emoji.getD "" := by
  induction entries with
  | nil =>
    intro s l s2 _ hok d hd
    simp [selectLoop] at hok
    exact absurd (hok.1 ▸ hd) (List.not_mem_nil d)
  | cons hd rest ih =>
    intro s l s2 hmem hok d hdl
    obtain ⟨m, p⟩ := hd
    by_cases h : p.maps.getD [] = []
    · simp [selectLoop, h] at hok
    · cases hrec : selectLoop rs rest (rs.choice s (p.maps.getD [])).2 with
      | mk res s3 =>
        cases res with
        | error e => simp [selectLoop, h, hrec] at hok
        | ok l2 =>
          simp [selectLoop, h, hrec] at hok
          obtain ⟨hl, _⟩ := hok
          rw [← hl] at hdl
          rcases List.mem_cons.mp hdl with hhead | htail
          · subst hhead
            exact ⟨p, hmem (m, p) (List.mem_cons_self _ _),
              hc s (p.maps.getD []) h, rfl⟩
          · exact ih (rs.choice s (p.maps.getD [])).2 l2 s3
              (fun e he => hmem e (List.mem_cons_of_mem _ he)) hrec d htail

/-- Nodup descends along a sub-permutation. -/
theorem subperm_nodup {α : Type} {l₁ l₂ : List α} (h : List.Subperm l₁ l₂)
    (hn : l₂.Nodup) : l₁.Nodup := by
  obtain ⟨t, hp, hs⟩ := h
  exact hp.nodup_iff.mp (hn.sublist hs)

/-- Mapping preserves sub-permutations. -/
theorem subperm_map {α β : Type} (f : α → β) {l₁ l₂ : List α}
    (h : List.Subperm l₁ l₂) : List.Subperm (l₁.map f) (l₂.map f) := by
  obtain ⟨t, hp, hs⟩ := h
  exact ⟨t.map f, hp.map f, hs.map f⟩

/-- The running tail of a string join: separator before every element. -/
def tailJoin (sep : String) : List String → String
  | [] => ""
  | a :: as => sep ++ a ++ tailJoin sep as

/-- The accumulator-passing worker of String.intercalate appends the
joined tail to the accumulator. -/
theorem intercalate_go_eq (sep : String) :
    ∀ (as : List String) (acc : String),
      String.intercalate.go acc sep as = acc ++ tailJoin sep as
  | [], acc => by simp [String.intercalate.go, tailJoin]
  | a :: as, acc => by
    rw [String.intercalate.go, intercalate_go_eq sep as, tailJoin]
    simp [String.append_assoc]

/-- String.intercalate with a newline separator agrees with the
recursive specification-side join. -/
theorem joinedLines_eq_intercalate :
    ∀ (lines : List String), String.intercalate "\n" lines = joinedLines lines
  | [] => rfl
  | [a] => by
    rw [String.intercalate, intercalate_go_eq, tailJoin, joinedLines]
    simp
  | a :: b :: bs => by
    rw [String.intercalate, intercalate_go_eq, tailJoin, joinedLines,
      ← joinedLines_eq_intercalate (b :: bs), String.intercalate,
      intercalate_go_eq]
    simp [String.append_assoc]

/-! ### Claim theorems -/

/-- Claim C1: for every count with 1 <= count <= number of modes in the
table, pick_unique_mode_maps returns a sequence of exactly count
MapDefinition values whose mode fields are pairwise distinct, in the
order the modes were sampled from the random source.  The random source
is abstract; the hypotheses state the contract of random.sample: it
hands out exactly k entries that form a sub-permutation of the
population. -/
theorem pick_unique_mode_maps_count_distinct {σ : Type} (rs : RandomSource σ)
    (s : σ) (count : Int) (h1 : 1 ≤ count)
    (h2 : count ≤ (MAP_ROTATION.length : Int))
    (hsub : List.Subperm (rs.sample s MAP_ROTATION count.toNat).1 MAP_ROTATION)
    (hlen : (rs.sample s MAP_ROTATION count.toNat).1.length = count.toNat) :
    ∃ l s2, pick_unique_mode_maps rs s count = (Except.ok l, s2) ∧
      l.length = count.toNat ∧
      (l.map MapDefinition.mode).Nodup ∧
      l.map MapDefinition.mode =
        (rs.sample s MAP_ROTATION count.toNat).1.map Prod.fst := by
  have hok := normalise_ok count MAP_ROTATION.length h1 h2
  have hne : ∀ e ∈ (rs.sample s MAP_ROTATION count.toNat).1,
      e.2.maps.getD [] ≠ [] :=
    fun e he => rotation_maps_nonempty e (hsub.subset he)
  obtain ⟨l, s2, hsel, hmap⟩ := selectLoop_ok rs
    (rs.sample s MAP_ROTATION count.toNat).1
    (rs.sample s MAP_ROTATION count.toNat).2 hne
  refine ⟨l, s2, ?_, ?_, ?_, hmap⟩
  · show pickUniqueModeMapsFrom MAP_ROTATION rs s count = (Except.ok l, s2)
    simp only [pickUniqueModeMapsFrom, hok]
    exact hsel
  · have := congrArg List.length hmap
    simpa [hlen] using this
  · rw [hmap]
    exact subperm_nodup (subperm_map Prod.fst hsub) rotation_keys_nodup

/-- Witness for C1: the take-the-first-entries source at count 3. -/
theorem pick_unique_mode_maps_count_distinct_witness :
    ∃ l s2, pick_unique_mode_maps headRng () 3 = (Except.ok l, s2) ∧
      l.length = (3 : Int).toNat ∧
      (l.map MapDefinition.mode).Nodup ∧
      l.map MapDefinition.mode =
        (headRng.sample () MAP_ROTATION (3 : Int).toNat).1.map Prod.fst :=
  pick_unique_mode_maps_count_distinct headRng () 3 (by decide) (by decide)
    ((List.take_sublist _ _).subperm) rfl

/-- Claim C2: the selection fails with an invalid-argument error exactly
when the count is non-positive, the table is empty, the count exceeds
the number of table entries, or the random source handed out an entry
with an empty map list; on every valid input it succeeds.  Stated for
pick_unique_mode_maps with the global table made explicit so that the
empty-table and empty-map-list triggers are expressible. -/
theorem pick_unique_mode_maps_error_iff {σ : Type}
    (table : List (String × Payload)) (rs : RandomSource σ) (s : σ)
    (count : Int) :
    (∃ msg, (pickUniqueModeMapsFrom table rs s count).1 = Except.error msg) ↔
      (count ≤ 0 ∨ table.length = 0 ∨ (table.length : Int) < count ∨
        ∃ e ∈ (rs.sample s table count.toNat).1, e.2.maps.getD [] = []) := by
  by_cases hv : 1 ≤ count ∧ count ≤ (table.length : Int)
  · have hok := normalise_ok count table.length hv.1 hv.2
    simp only [pickUniqueModeMapsFrom, hok]
    rw [selectLoop_error_iff]
    constructor
    · intro hx
      exact Or.inr (Or.inr (Or.inr hx))
    · intro hx
      rcases hx with h | h | h | h
      · exact absurd h (by omega)
      · exact absurd h (by omega)
      · exact absurd h (by omega)
      · exact h
  · obtain ⟨e, he⟩ := normalise_error count table.length (by omega)
    simp only [pickUniqueModeMapsFrom, he]
    constructor
    · intro _
      by_cases h1 : count ≤ 0
      · exact Or.inl h1
      · by_cases h2 : table.length = 0
        · exact Or.inr (Or.inl h2)
        · exact Or.inr (Or.inr (Or.inl (by omega)))
    · intro _
      exact ⟨e, rfl⟩

/-- Claim C3: format_rotation_message renders one line per item in
input order, joined by single newlines with no trailing newline, and
the empty string for an empty selection; being a total function of its
input it can never raise. -/
theorem format_rotation_message_spec :
    format_rotation_message [] = "" ∧
      ∀ (selection : List MapDefinition),
        format_rotation_message selection =
          joinedLines (selection.map rotationLine) := by
  refine ⟨rfl, ?_⟩
  intro selection
  show String.intercalate "\n" (selection.map rotationLine) =
    joinedLines (selection.map rotationLine)
  exact joinedLines_eq_intercalate _

/-- Claim C4: every MapDefinition returned by pick_unique_mode_maps
takes its map from the table entry of its mode and carries that entry's
emoji.  The hypotheses state the contracts of random.sample (entries
come from the population) and random.choice (the pick is a member). -/
theorem pick_unique_mode_maps_from_table {σ : Type} (rs : RandomSource σ)
    (s : σ) (count : Int)
    (hsamp : ∀ e ∈ (rs.sample s MAP_ROTATION count.toNat).1, e ∈ MAP_ROTATION)
    (hc : ∀ (st : σ) (l : List String), l ≠ [] → (rs.choice st l).1 ∈ l)
    (l : List MapDefinition) (s2 : σ)
    (hok : pick_unique_mode_maps rs s count = (Except.ok l, s2)) :
    ∀ d ∈ l, ∃ p, (d.mode, p) ∈ MAP_ROTATION ∧
      d.map_name ∈ p.maps.getD [] ∧ d.emoji = p.emoji.getD "" := by
  cases hn : _normalise_count count MAP_ROTATION.length with
  | error e =>
    have : pick_unique_mode_maps rs s count = (Except.error e, s) := by
      simp [pick_unique_mode_maps, pickUniqueModeMapsFrom, hn]
    rw [this] at hok
    exact absurd hok (by simp)
  | ok n =>
    have hn2 : n = count := normalise_ok_val hn
    rw [hn2] at hn
    have heq : pick_unique_mode_maps rs s count =
        selectLoop rs (rs.sample s MAP_ROTATION count.toNat).1
          (rs.sample s MAP_ROTATION count.toNat).2 := by
      simp [pick_unique_mode_maps, pickUniqueModeMapsFrom, hn]
    rw [heq] at hok
    exact selectLoop_mem rs hc MAP_ROTATION
      (rs.sample s MAP_ROTATION count.toNat).1
      (rs.sample s MAP_ROTATION count.toNat).2 l s2 hsamp hok

/-- Witness for C4: with the take-the-first-entries source at count 3,
the first returned map is the first gem-grab map with the gem-grab
emoji. -/
theorem pick_unique_mode_maps_from_table_witness :
    ∃ p, (("Razzia de gemmes" : String), p) ∈ MAP_ROTATION ∧
      ("Mine hard-rock" : String) ∈ p.maps.getD [] ∧
      ("<:GemGrab:1436473738765008976>" : String) = p.emoji.getD "" :=
  pick_unique_mode_maps_from_table headRng () 3 (by decide)
    (fun st l hl =>
      match l, hl with
      | a :: t, _ => List.mem_cons_self a t
      | [], hl => absurd rfl hl)
    [ MapDefinition.mk "Razzia de gemmes" "Mine hard-rock"
        "<:GemGrab:1436473738765008976>",
      MapDefinition.mk "Brawlball" "Tir au buts"
        "<:Brawlball:1436473735573143562>",
      MapDefinition.mk "Hors-jeu" "Rocher de la belle"
        "<:KnockOut:1436473703083937914>" ] ()
    rfl
    (MapDefinition.mk "Razzia de gemmes" "Mine hard-rock"
      "<:GemGrab:1436473738765008976>")
    (List.mem_cons_self _ _)

/-- Claim C5: the selection is deterministic in its random source: two
calls with equal counts and random sources in identical states return
identical results.  In the embedding the selector is a pure function of
the source, its state and the count, so it reads no other state. -/
theorem pick_unique_mode_maps_deterministic {σ : Type}
    (rs1 rs2 : RandomSource σ) (s1 s2 : σ) (c1 c2 : Int)
    (hr : rs1 = rs2) (hs : s1 = s2) (hc : c1 = c2) :
    pick_unique_mode_maps rs1 s1 c1 = pick_unique_mode_maps rs2 s2 c2 := by
  subst hr
  subst hs
  subst hc
  rfl

/-- Witness for C5: two identical calls at count 3. -/
theorem pick_unique_mode_maps_deterministic_witness :
    pick_unique_mode_maps headRng () 3 = pick_unique_mode_maps headRng () 3 :=
  pick_unique_mode_maps_deterministic headRng headRng () () 3 3 rfl rfl rfl

/-- Claim C6: with the scripted source replaying the draws of Python
Random(0) — modes Braquage, Prime, Razzia de gemmes, then maps
Arrêt au stand, Mille-feuille, Tunnel de mine — pick_unique_mode_maps
at count 3 returns exactly that triple in that order, each with the
table's emoji for its mode. -/
theorem pick_unique_mode_maps_seed_zero :
    (oracleRng.sample random0State MAP_ROTATION 3).1.map Prod.fst =
        ["Braquage", "Prime", "Razzia de gemmes"] ∧
      pick_unique_mode_maps oracleRng random0State 3 =
        (Except.ok
          [ MapDefinition.mk "Braquage" "Arrêt au stand"
              "<:Heist:1436473730812481546>",
            MapDefinition.mk "Prime" "Mille-feuille"
              "<:Bounty:1436473727519948962>",
            MapDefinition.mk "Razzia de gemmes" "Tunnel de mine"
              "<:GemGrab:1436473738765008976>" ],
          ⟨[], []⟩) :=
  ⟨rfl, rfl⟩

/-- Claim C7: the rotation table invariant holds: every entry has a
non-empty map list and the mode names are pairwise distinct.  The table
is a single top-level constant and both operations are pure functions,
so nothing modifies it. -/
theorem map_rotation_invariant :
    (∀ e ∈ MAP_ROTATION, e.2.maps.getD [] ≠ []) ∧
      (MAP_ROTATION.map Prod.fst).Nodup :=
  ⟨rotation_maps_nonempty, rotation_keys_nodup⟩

/-- Claim C8: for every count and available with
1 <= count <= available, the count validator returns the count
unchanged: despite its name and docstring it never clamps, it only
validates. -/
theorem normalise_count_returns_count (count : Int) (available : Nat)
    (h1 : 1 ≤ count) (h2 : count ≤ (available : Int)) :
    _normalise_count count available = Except.ok count :=
  normalise_ok count available h1 h2

/-- Witness for C8: count 3 of 6 modes is returned unchanged. -/
theorem normalise_count_returns_count_witness :
    _normalise_count 3 6 = Except.ok 3 :=
  normalise_count_returns_count 3 6 (by decide) (by decide)

/-- Claim C9: a table entry whose payload lacks the maps key makes the
selection fail with exactly the same invalid-argument error as an
entry with an empty map list, while an entry whose payload lacks the
emoji key silently yields a MapDefinition with an empty emoji instead
of raising. -/
theorem missing_key_behavior :
    ∀ (m : String) (e : Option String) (m0 : String) (mrest : List String),
      (pickUniqueModeMapsFrom [(m, Payload.mk e none)] headRng () 1 =
          pickUniqueModeMapsFrom [(m, Payload.mk e (some []))] headRng () 1 ∧
        pickUniqueModeMapsFrom [(m, Payload.mk e none)] headRng () 1 =
          (Except.error ("mode \x27" ++ m ++ "\x27 has no maps configured"),
            ())) ∧
      pickUniqueModeMapsFrom [(m, Payload.mk none (some (m0 :: mrest)))]
          headRng () 1 =
        (Except.ok [MapDefinition.mk m m0 ""], ()) :=
  fun _ _ _ _ => ⟨⟨rfl, rfl⟩, rfl⟩

/-- Claim C10: when the selection fails because the count is
non-positive, exceeds the number of modes, or the table is empty, the
error is signalled before anything is drawn, so the random-source state
comes back unchanged. -/
theorem error_before_drawing {σ : Type} (table : List (String × Payload))
    (rs : RandomSource σ) (s : σ) (count : Int)
    (h : count ≤ 0 ∨ table.length = 0 ∨ (table.length : Int) < count) :
    (∃ msg, (pickUniqueModeMapsFrom table rs s count).1 = Except.error msg) ∧
      (pickUniqueModeMapsFrom table rs s count).2 = s := by
  obtain ⟨e, he⟩ := normalise_error count table.length h
  simp only [pickUniqueModeMapsFrom, he]
  exact ⟨⟨e, rfl⟩, trivial⟩

/-- Witness for C10: a zero count against the real table errors with
the state untouched. -/
theorem error_before_drawing_witness :
    (∃ msg, (pickUniqueModeMapsFrom MAP_ROTATION headRng () 0).1 =
        Except.error msg) ∧
      (pickUniqueModeMapsFrom MAP_ROTATION headRng () 0).2 = () :=
  error_before_drawing MAP_ROTATION headRng () 0 (Or.inl (by decide))

end BrawlMaps
